import Mathlib

/-!
Verification of two frontend utilities of the horary chart application:

* `parseReasoningEntry` (backend/frontend/src/utils, shipped next to
  `cleanMoonText.js`): splits a free-text reasoning string into a rule text
  and a trailing numeric weight using two end-anchored regular expressions,
  `\(([-+]?\d+(?:\.\d+)?)\s*%?\)\s*$` and `([-+]?\d+(?:\.\d+)?)\s*%?\s*$`.
* `cleanMoonText`: a string-normalization utility whose guard returns any
  falsy or non-string argument unchanged.
* `getLocationData` (the location resolver inside `buildChartPayload`):
  an ordered fallback chain extracting `{city, country, lat, lon}` from a
  loosely shaped chart record.

The regexes are embedded as deterministic suffix matchers over `List Char`
together with a leftmost-position search, which coincides with the
JavaScript engine's behavior for these two patterns (both are anchored at
the end of the string, and the greedy sub-parsers never need backtracking
because no character can extend a numeral and also start its continuation).
Numeric values are modelled as `Rat`; every numeral accepted by the
patterns is a finite decimal, and the concrete weights appearing in the
spec are exactly representable, so `parseFloat` introduces no rounding on
the tokens at issue.  JavaScript whitespace (`\s`) is modelled by its ASCII
part, which covers every string the spec discusses.
-/

/-- ASCII part of JavaScript `\s` (also used by `String.prototype.trim`). -/
def isSpace (c : Char) : Bool :=
  c = ' ' || c = '\t' || c = '\n' || c = '\r' || c = '\x0b' || c = '\x0c'

/-- JavaScript `\d`. -/
def isDigit (c : Char) : Bool :=
  '0' ≤ c && c ≤ '9'

/-- Greedy `\d*`: the maximal digit prefix and the remainder. -/
def matchDigits : List Char → List Char × List Char
  | [] => ([], [])
  | c :: cs =>
    if isDigit c then (c :: (matchDigits cs).1, (matchDigits cs).2)
    else ([], c :: cs)

/-- Body of the numeral matcher after the optional sign: `\d+(?:\.\d+)?`. -/
def matchNumAux (sign cs1 : List Char) : Option (List Char × List Char) :=
  if (matchDigits cs1).1 = [] then none
  else
    match (matchDigits cs1).2 with
    | c :: r2 =>
      if c = '.' then
        if (matchDigits r2).1 = [] then some (sign ++ (matchDigits cs1).1, c :: r2)
        else some (sign ++ (matchDigits cs1).1 ++ '.' :: (matchDigits r2).1, (matchDigits r2).2)
      else some (sign ++ (matchDigits cs1).1, c :: r2)
    | [] => some (sign ++ (matchDigits cs1).1, [])

/-- The capture group `[-+]?\d+(?:\.\d+)?`: the numeral token and the rest. -/
def matchNum : List Char → Option (List Char × List Char)
  | [] => none
  | c :: rest =>
    if c = '-' || c = '+' then matchNumAux [c] rest
    else matchNumAux [] (c :: rest)

/-- Greedy `\s*`. -/
def skipSpaces : List Char → List Char
  | [] => []
  | c :: cs => if isSpace c then skipSpaces cs else c :: cs

/-- `%?`: drop one leading percent sign if present. -/
def pctSkip : List Char → List Char
  | [] => []
  | c :: t => if c = '%' then t else c :: t

/-- Full-suffix match of `\(([-+]?\d+(?:\.\d+)?)\s*%?\)\s*$` starting at the
head of `cs`; returns the captured numeral. -/
def parenSuffix (cs : List Char) : Option (List Char) :=
  match cs with
  | [] => none
  | c :: rest =>
    if c = '(' then
      match matchNum rest with
      | none => none
      | some (num, r1) =>
        match pctSkip (skipSpaces r1) with
        | [] => none
        | d :: r4 =>
          if d = ')' then (if r4.all isSpace then some num else none) else none
    else none

/-- Full-suffix match of `([-+]?\d+(?:\.\d+)?)\s*%?\s*$` starting at the
head of `cs`; returns the captured numeral. -/
def bareSuffix (cs : List Char) : Option (List Char) :=
  match matchNum cs with
  | none => none
  | some (num, r1) =>
    if (pctSkip (skipSpaces r1)).all isSpace then some num else none

/-- Leftmost position (as `String.prototype.match` reports via `.index`)
at which the end-anchored pattern `p` matches, with the capture. -/
def findMatchFrom (p : List Char → Option (List Char)) :
    List Char → Option (Nat × List Char)
  | [] => match p [] with
    | some a => some (0, a)
    | none => none
  | c :: cs =>
    match p (c :: cs) with
    | some a => some (0, a)
    | none =>
      match findMatchFrom p cs with
      | some (i, a) => some (i + 1, a)
      | none => none

/-- JavaScript `String.prototype.trim` on a character list. -/
def jsTrim (cs : List Char) : List Char :=
  ((cs.dropWhile isSpace).reverse.dropWhile isSpace).reverse

/-- `trim` on strings. -/
def jsTrimS (s : String) : String :=
  String.mk (jsTrim s.data)

/-- Value of a digit string. -/
def digitsVal (ds : List Char) : Nat :=
  ds.foldl (fun a c => 10 * a + (c.toNat - 48)) 0

/-- Value of an unsigned numeral `\d+(?:\.\d+)?` (digits, then the scaled
fraction), written with `mkRat` over `Nat` arithmetic so that it evaluates
in the kernel. -/
def numMagVal (cs : List Char) : Rat :=
  let intPart := cs.takeWhile (fun c => c ≠ '.')
  let frPart := cs.dropWhile (fun c => c ≠ '.')
  match frPart with
  | '.' :: fs => mkRat (digitsVal intPart * 10 ^ fs.length + digitsVal fs) (10 ^ fs.length)
  | _ => mkRat (digitsVal intPart) 1

/-- `parseFloat` on a token produced by the numeral capture group.  (On such
tokens `parseFloat` never yields `NaN`, so the source's `|| 0` guard is the
numeric identity.) -/
def numTokenVal (num : List Char) : Rat :=
  match num with
  | '-' :: rest => -(numMagVal rest)
  | '+' :: rest => numMagVal rest
  | _ => numMagVal num

/-- A JavaScript value, as far as the utilities inspect one: the guards only
use truthiness and `typeof`. -/
inductive JSValue where
  | vundef : JSValue
  | vnull : JSValue
  | vbool : Bool → JSValue
  | vnum : Rat → JSValue
  | vstr : String → JSValue
  | vobj : List (String × JSValue) → JSValue
  | varr : List JSValue → JSValue

/-- `typeof v === 'string'`. -/
def JSValue.isStr : JSValue → Bool
  | .vstr _ => true
  | _ => false

/-- JavaScript truthiness (`NaN` does not arise in `Rat`). -/
def truthy : JSValue → Bool
  | .vundef => false
  | .vnull => false
  | .vbool b => b
  | .vnum q => !(q = 0)
  | .vstr s => !(s = "")
  | .vobj _ => true
  | .varr _ => true

/-- Result record of the reasoning-entry parser. -/
structure ParsedEntry where
  rule : String
  weight : Rat
deriving DecidableEq

/-- `parseReasoningEntry` from `cleanMoonText.js` (lines 18-29 of the bundled
utils file): non-strings map to `{rule: "", weight: 0}`; otherwise the
parenthesized end-anchored numeral is tried first, then the bare one, and
the rule is the trimmed slice before the match index. -/
def parseReasoningEntry (v : JSValue) : ParsedEntry :=
  match v with
  | .vstr s =>
    match findMatchFrom parenSuffix s.data with
    | some (i, num) => ⟨String.mk (jsTrim (s.data.take i)), numTokenVal num⟩
    | none =>
      match findMatchFrom bareSuffix s.data with
      | some (i, num) => ⟨String.mk (jsTrim (s.data.take i)), numTokenVal num⟩
      | none => ⟨String.mk (jsTrim s.data), 0⟩
  | _ => ⟨"", 0⟩

/-- `cleanMoonText`: `if (!text || typeof text !== 'string') return text;`
followed by a chain of regex replacements on the string.  The replacement
chain is irrelevant to the guard behavior under scrutiny and is abstracted
as the parameter `f`; the guard itself is embedded exactly. -/
def cleanMoonText (f : String → String) (v : JSValue) : JSValue :=
  if truthy v = false || v.isStr = false then v
  else
    match v with
    | .vstr s => .vstr (f s)
    | w => w

/-!
Declarative (spec-side) descriptions of the two trailing-numeral grammars.
`ParenAt cs num` states that the whole of `cs` is one parenthesized numeric
group `\(num\s*%?\)\s*` reaching the end; `BareAt cs num` states that the
whole of `cs` is a bare numeral followed only by optional whitespace, an
optional percent sign and optional whitespace.
-/

/-- Optional sign of a numeral. -/
def SignShape (sign : List Char) : Prop :=
  sign = [] ∨ sign = ['-'] ∨ sign = ['+']

/-- Nonempty run of digits. -/
def DigitsShape (ds : List Char) : Prop :=
  ds ≠ [] ∧ ∀ c ∈ ds, isDigit c = true

/-- Optional fractional part `(?:\.\d+)?`. -/
def FracShape (fr : List Char) : Prop :=
  fr = [] ∨ ∃ fs, DigitsShape fs ∧ fr = '.' :: fs

/-- Optional percent sign. -/
def PctShape (p : List Char) : Prop :=
  p = [] ∨ p = ['%']

/-- All characters are whitespace. -/
def Spaces (sp : List Char) : Prop :=
  ∀ c ∈ sp, isSpace c = true

/-- A well-formed numeral token `[-+]?\d+(?:\.\d+)?`. -/
def NumShape (num : List Char) : Prop :=
  ∃ sign ds fr, SignShape sign ∧ DigitsShape ds ∧ FracShape fr ∧
    num = sign ++ ds ++ fr

/-- `cs` is exactly a parenthesized numeric group anchored at the end. -/
def ParenAt (cs num : List Char) : Prop :=
  ∃ sp1 pct sp2, NumShape num ∧ Spaces sp1 ∧ PctShape pct ∧ Spaces sp2 ∧
    cs = '(' :: num ++ sp1 ++ pct ++ ')' :: sp2

/-- `cs` is exactly a bare trailing numeral with optional percent suffix. -/
def BareAt (cs num : List Char) : Prop :=
  ∃ sp1 pct sp2, NumShape num ∧ Spaces sp1 ∧ PctShape pct ∧ Spaces sp2 ∧
    cs = num ++ sp1 ++ pct ++ sp2

/-! Character-class facts. -/

theorem space_not_digit {c : Char} (h : isSpace c = true) :
    isDigit c = false ∧ c ≠ '.' ∧ c ≠ '(' ∧ c ≠ '%' := by
  simp only [isSpace, Bool.or_eq_true, decide_eq_true_eq] at h
  rcases h with ((((h | h) | h) | h) | h) | h <;> subst h <;> exact ⟨rfl, by decide, by decide, by decide⟩

theorem digit_props {c : Char} (h : isDigit c = true) :
    c ≠ '-' ∧ c ≠ '+' ∧ c ≠ '(' ∧ c ≠ '.' := by
  refine ⟨?_, ?_, ?_, ?_⟩ <;> rintro rfl <;> simp [isDigit] at h

/-! Soundness and completeness of the digit scanner. -/

theorem matchDigits_sound (cs : List Char) :
    cs = (matchDigits cs).1 ++ (matchDigits cs).2 ∧
      ∀ c ∈ (matchDigits cs).1, isDigit c = true := by
  induction cs with
  | nil => simp [matchDigits]
  | cons c cs ih =>
    by_cases h : isDigit c = true
    · simp only [matchDigits, h, if_pos]
      exact ⟨by simpa using congrArg (c :: ·) ih.1,
        fun d hd => by
          rcases List.mem_cons.mp hd with rfl | hd
          · exact h
          · exact ih.2 d hd⟩
    · simp [matchDigits, h]

theorem matchDigits_complete (ds r : List Char)
    (hd : ∀ c ∈ ds, isDigit c = true)
    (hr : ∀ c, r.head? = some c → isDigit c = false) :
    matchDigits (ds ++ r) = (ds, r) := by
  induction ds with
  | nil =>
    cases r with
    | nil => rfl
    | cons c r =>
      have := hr c rfl
      simp [matchDigits, this]
  | cons d ds ih =>
    have hdd : isDigit d = true := hd d (List.mem_cons_self d ds)
    have ih' := ih (fun c hc => hd c (List.mem_cons_of_mem d hc))
    simp [matchDigits, hdd, ih']

/-! Soundness and completeness of the numeral matcher. -/

theorem matchNumAux_sound {sign cs1 num r : List Char}
    (h : matchNumAux sign cs1 = some (num, r)) :
    ∃ ds fr, DigitsShape ds ∧ FracShape fr ∧
      num = sign ++ ds ++ fr ∧ cs1 = ds ++ fr ++ r := by
  obtain ⟨hcs1, hdig⟩ := matchDigits_sound cs1
  unfold matchNumAux at h
  by_cases hds : (matchDigits cs1).1 = []
  · rw [if_pos hds] at h
    cases h
  · rw [if_neg hds] at h
    split at h
    · rename_i c r2 heq
      rw [heq] at hcs1
      by_cases hc : c = '.'
      · rw [if_pos hc] at h
        by_cases hfs : (matchDigits r2).1 = []
        · rw [if_pos hfs] at h
          cases h
          exact ⟨(matchDigits cs1).1, [], ⟨hds, hdig⟩, Or.inl rfl, by simp,
            by simpa using hcs1⟩
        · rw [if_neg hfs] at h
          cases h
          obtain ⟨hr2, hdig2⟩ := matchDigits_sound r2
          subst hc
          rw [hr2] at hcs1
          exact ⟨(matchDigits cs1).1, '.' :: (matchDigits r2).1,
            ⟨hds, hdig⟩, Or.inr ⟨(matchDigits r2).1, ⟨hfs, hdig2⟩, rfl⟩, by simp,
            by simpa using hcs1⟩
      · rw [if_neg hc] at h
        cases h
        exact ⟨(matchDigits cs1).1, [], ⟨hds, hdig⟩, Or.inl rfl, by simp,
          by simpa using hcs1⟩
    · rename_i heq
      rw [heq] at hcs1
      cases h
      exact ⟨(matchDigits cs1).1, [], ⟨hds, hdig⟩, Or.inl rfl, by simp,
        by simpa using hcs1⟩

theorem matchNum_sound {cs num r : List Char}
    (h : matchNum cs = some (num, r)) :
    NumShape num ∧ cs = num ++ r := by
  cases cs with
  | nil => cases h
  | cons c rest =>
    simp only [matchNum] at h
    by_cases hsign : (c = '-' || c = '+') = true
    · rw [if_pos hsign] at h
      obtain ⟨ds, fr, hds, hfr, hnum, hrest⟩ := matchNumAux_sound h
      rcases Bool.or_eq_true _ _ |>.mp hsign with hc | hc
      · have hc' : c = '-' := by simpa using hc
        subst hc'
        exact ⟨⟨['-'], ds, fr, Or.inr (Or.inl rfl), hds, hfr, hnum⟩,
          by rw [hnum, hrest]; simp⟩
      · have hc' : c = '+' := by simpa using hc
        subst hc'
        exact ⟨⟨['+'], ds, fr, Or.inr (Or.inr rfl), hds, hfr, hnum⟩,
          by rw [hnum, hrest]; simp⟩
    · rw [if_neg hsign] at h
      obtain ⟨ds, fr, hds, hfr, hnum, hrest⟩ := matchNumAux_sound h
      exact ⟨⟨[], ds, fr, Or.inl rfl, hds, hfr, hnum⟩,
        by rw [hnum]; simpa using hrest⟩

/-- Characters that cannot extend a numeral: the continuation after a
well-formed token never starts with a digit or a dot. -/
def NotNumExt (r : List Char) : Prop :=
  ∀ c, r.head? = some c → isDigit c = false ∧ c ≠ '.'

theorem matchNumAux_complete (sign ds fr r : List Char)
    (hd : DigitsShape ds) (hf : FracShape fr) (hr : NotNumExt r) :
    matchNumAux sign (ds ++ fr ++ r) = some (sign ++ ds ++ fr, r) := by
  rcases hf with rfl | ⟨fs, hfs, rfl⟩
  · have h1 : matchDigits (ds ++ r) = (ds, r) :=
      matchDigits_complete ds r hd.2 (fun c hc => (hr c hc).1)
    unfold matchNumAux
    rw [List.append_nil, List.append_nil, h1]
    rw [if_neg hd.1]
    cases r with
    | nil => rfl
    | cons c r' =>
      have hc := hr c rfl
      simp [hc.2]
  · have h2 : matchDigits (fs ++ r) = (fs, r) :=
      matchDigits_complete fs r hfs.2 (fun c hc => (hr c hc).1)
    have h1 : matchDigits (ds ++ '.' :: (fs ++ r)) = (ds, '.' :: (fs ++ r)) :=
      matchDigits_complete ds ('.' :: (fs ++ r)) hd.2
        (fun c hc => by cases hc; decide)
    unfold matchNumAux
    have harr : ds ++ '.' :: fs ++ r = ds ++ '.' :: (fs ++ r) := by simp
    rw [harr, h1]
    rw [if_neg hd.1]
    simp [h2, hfs.1]

theorem matchNum_complete (sign ds fr r : List Char)
    (hs : SignShape sign) (hd : DigitsShape ds) (hf : FracShape fr)
    (hr : NotNumExt r) :
    matchNum (sign ++ ds ++ fr ++ r) = some (sign ++ ds ++ fr, r) := by
  rcases hs with rfl | rfl | rfl
  · obtain ⟨d, ds', hds'⟩ := List.exists_cons_of_ne_nil hd.1
    subst hds'
    have hdd : isDigit d = true := hd.2 d (List.mem_cons_self d ds')
    have hnotsign : (d = '-' || d = '+') = false := by
      have := digit_props hdd
      simp [this.1, this.2.1]
    have haux := matchNumAux_complete [] (d :: ds') fr r hd hf hr
    simpa [matchNum, hnotsign] using haux
  · have haux := matchNumAux_complete ['-'] ds fr r hd hf hr
    simpa [matchNum] using haux
  · have haux := matchNumAux_complete ['+'] ds fr r hd hf hr
    simpa [matchNum] using haux

/-! Whitespace and percent skipping. -/

theorem skipSpaces_spaces {sp : List Char} (h : Spaces sp) :
    skipSpaces sp = [] := by
  induction sp with
  | nil => rfl
  | cons c sp ih =>
    have := h c (List.mem_cons_self c sp)
    simp [skipSpaces, this, ih (fun d hd => h d (List.mem_cons_of_mem c hd))]

theorem skipSpaces_complete {sp r : List Char} (h : Spaces sp)
    (hr : ∀ c, r.head? = some c → isSpace c = false) :
    skipSpaces (sp ++ r) = r := by
  induction sp with
  | nil =>
    cases r with
    | nil => rfl
    | cons c r' => simp [skipSpaces, hr c rfl]
  | cons c sp ih =>
    have := h c (List.mem_cons_self c sp)
    simp [skipSpaces, this, ih (fun d hd => h d (List.mem_cons_of_mem c hd))]

theorem skipSpaces_sound (cs : List Char) :
    ∃ sp, Spaces sp ∧ cs = sp ++ skipSpaces cs := by
  induction cs with
  | nil => exact ⟨[], fun c hc => absurd hc (List.not_mem_nil c), rfl⟩
  | cons c cs ih =>
    by_cases h : isSpace c = true
    · obtain ⟨sp, hsp, heq⟩ := ih
      refine ⟨c :: sp, ?_, ?_⟩
      · intro d hd
        rcases List.mem_cons.mp hd with rfl | hd
        · exact h
        · exact hsp d hd
      · simp [skipSpaces, h, ← heq]
    · exact ⟨[], fun d hd => absurd hd (List.not_mem_nil d), by simp [skipSpaces, h]⟩

theorem pctSkip_sound (cs : List Char) :
    ∃ pct, PctShape pct ∧ cs = pct ++ pctSkip cs := by
  cases cs with
  | nil => exact ⟨[], Or.inl rfl, rfl⟩
  | cons c t =>
    by_cases hc : c = '%'
    · subst hc
      exact ⟨['%'], Or.inr rfl, by simp [pctSkip]⟩
    · exact ⟨[], Or.inl rfl, by simp [pctSkip, hc]⟩

theorem Spaces_of_all {r : List Char} (h : r.all isSpace = true) : Spaces r :=
  fun c hc => List.all_eq_true.mp h c hc

theorem spaces_nil : Spaces [] :=
  fun c hc => absurd hc (List.not_mem_nil c)

theorem all_of_Spaces {r : List Char} (h : Spaces r) : r.all isSpace = true :=
  List.all_eq_true.mpr h

/-! Soundness and completeness of the two full-suffix matchers. -/

theorem parenSuffix_sound {cs num : List Char}
    (h : parenSuffix cs = some num) : ParenAt cs num := by
  cases cs with
  | nil => cases h
  | cons c rest =>
    simp only [parenSuffix] at h
    by_cases hc : c = '('
    · rw [if_pos hc] at h
      subst hc
      split at h
      · cases h
      · rename_i num' r1 heq
        obtain ⟨hshape, hrest⟩ := matchNum_sound heq
        split at h
        · cases h
        · rename_i d r4 heq2
          by_cases hd : d = ')'
          · rw [if_pos hd] at h
            subst hd
            by_cases hsp : r4.all isSpace
            · rw [if_pos hsp] at h
              cases h
              obtain ⟨sp1, hsp1, hr1⟩ := skipSpaces_sound r1
              obtain ⟨pct, hpct, hps⟩ := pctSkip_sound (skipSpaces r1)
              rw [heq2] at hps
              refine ⟨sp1, pct, r4, hshape, hsp1, hpct, Spaces_of_all hsp, ?_⟩
              rw [hrest, hr1, hps]
              simp
            · rw [if_neg hsp] at h
              cases h
          · rw [if_neg hd] at h
            cases h
    · rw [if_neg hc] at h
      cases h

theorem notNumExt_assemble {sp1 pct rest : List Char}
    (hsp : Spaces sp1) (hpct : PctShape pct)
    (hrest : ∀ c, rest.head? = some c → isDigit c = false ∧ c ≠ '.') :
    NotNumExt (sp1 ++ (pct ++ rest)) := by
  intro c hc
  cases sp1 with
  | cons a sp' =>
    have : a = c := by simpa using hc
    subst this
    have := space_not_digit (hsp a (List.mem_cons_self a sp'))
    exact ⟨this.1, this.2.1⟩
  | nil =>
    rcases hpct with rfl | rfl
    · exact hrest c (by simpa using hc)
    · have : '%' = c := by simpa using hc
      subst this
      exact ⟨by decide, by decide⟩

theorem parenSuffix_complete {cs num : List Char}
    (h : ParenAt cs num) : parenSuffix cs = some num := by
  obtain ⟨sp1, pct, sp2, hshape, hsp1, hpct, hsp2, rfl⟩ := h
  obtain ⟨sign, ds, fr, hs, hd, hf, rfl⟩ := hshape
  have hmn : matchNum ((sign ++ ds ++ fr) ++ (sp1 ++ (pct ++ ')' :: sp2))) =
      some (sign ++ ds ++ fr, sp1 ++ (pct ++ ')' :: sp2)) := by
    have := matchNum_complete sign ds fr (sp1 ++ (pct ++ ')' :: sp2)) hs hd hf
      (notNumExt_assemble hsp1 hpct
        (fun c hc => by
          have : ')' = c := by simpa using hc
          subst this
          exact ⟨by decide, by decide⟩))
    simpa using this
  have hss : skipSpaces (sp1 ++ (pct ++ ')' :: sp2)) = pct ++ ')' :: sp2 := by
    refine skipSpaces_complete hsp1 ?_
    rcases hpct with rfl | rfl
    · intro c hc
      have : ')' = c := by simpa using hc
      subst this
      decide
    · intro c hc
      have : '%' = c := by simpa using hc
      subst this
      decide
  have hpk : pctSkip (pct ++ ')' :: sp2) = ')' :: sp2 := by
    rcases hpct with rfl | rfl
    · simp [pctSkip]
    · simp [pctSkip]
  have hcs : ('(' :: (sign ++ ds ++ fr) ++ sp1 ++ pct) ++ ')' :: sp2 =
      '(' :: ((sign ++ ds ++ fr) ++ (sp1 ++ (pct ++ ')' :: sp2))) := by simp
  rw [hcs]
  simp only [parenSuffix, if_pos rfl, hmn, hss, hpk]
  simp [all_of_Spaces hsp2]

theorem bareSuffix_sound {cs num : List Char}
    (h : bareSuffix cs = some num) : BareAt cs num := by
  unfold bareSuffix at h
  split at h
  · cases h
  · rename_i num' r1 heq
    obtain ⟨hshape, hrest⟩ := matchNum_sound heq
    by_cases hsp : (pctSkip (skipSpaces r1)).all isSpace
    · rw [if_pos hsp] at h
      cases h
      obtain ⟨sp1, hsp1, hr1⟩ := skipSpaces_sound r1
      obtain ⟨pct, hpct, hps⟩ := pctSkip_sound (skipSpaces r1)
      refine ⟨sp1, pct, pctSkip (skipSpaces r1), hshape, hsp1, hpct,
        Spaces_of_all hsp, ?_⟩
      calc cs = num ++ r1 := hrest
        _ = num ++ (sp1 ++ skipSpaces r1) := congrArg (fun t => num ++ t) hr1
        _ = num ++ (sp1 ++ (pct ++ pctSkip (skipSpaces r1))) :=
          congrArg (fun t => num ++ (sp1 ++ t)) hps
        _ = num ++ sp1 ++ pct ++ pctSkip (skipSpaces r1) := by simp
    · rw [if_neg hsp] at h
      cases h

theorem bareSuffix_complete {cs num : List Char}
    (h : BareAt cs num) : bareSuffix cs = some num := by
  obtain ⟨sp1, pct, sp2, hshape, hsp1, hpct, hsp2, rfl⟩ := h
  obtain ⟨sign, ds, fr, hs, hd, hf, rfl⟩ := hshape
  have hmn : matchNum ((sign ++ ds ++ fr) ++ (sp1 ++ (pct ++ sp2))) =
      some (sign ++ ds ++ fr, sp1 ++ (pct ++ sp2)) := by
    have := matchNum_complete sign ds fr (sp1 ++ (pct ++ sp2)) hs hd hf
      (notNumExt_assemble hsp1 hpct
        (fun c hc => by
          cases sp2 with
          | nil => cases hc
          | cons b sp2' =>
            have : b = c := by simpa using hc
            subst this
            have := space_not_digit (hsp2 b (List.mem_cons_self b sp2'))
            exact ⟨this.1, this.2.1⟩))
    simpa using this
  have hcs : (sign ++ ds ++ fr) ++ sp1 ++ pct ++ sp2 =
      (sign ++ ds ++ fr) ++ (sp1 ++ (pct ++ sp2)) := by simp
  rw [hcs]
  simp only [bareSuffix, hmn]
  have hsp2all : ∀ r, Spaces r → (pctSkip (skipSpaces (sp1 ++ (pct ++ r)))).all isSpace = true := by
    intro r hr
    rcases hpct with rfl | rfl
    · have h1 : skipSpaces (sp1 ++ ([] ++ r)) = skipSpaces (sp1 ++ r) := by simp
      rw [h1]
      have h2 : skipSpaces (sp1 ++ r) = [] := by
        refine skipSpaces_spaces ?_
        intro c hc
        rcases List.mem_append.mp hc with hc | hc
        · exact hsp1 c hc
        · exact hr c hc
      rw [h2]
      rfl
    · have h0 : sp1 ++ (['%'] ++ r) = sp1 ++ '%' :: r := by simp
      have h1 : skipSpaces (sp1 ++ ('%' :: r)) = '%' :: r :=
        skipSpaces_complete hsp1 (fun c hc => by
          have : '%' = c := by simpa using hc
          subst this
          decide)
      rw [h0, h1]
      have h2 : pctSkip ('%' :: r) = r := by simp [pctSkip]
      rw [h2]
      exact all_of_Spaces hr
  rw [if_pos (hsp2all sp2 hsp2)]

/-- Inside a parenthesized trailing group, the opening parenthesis occurs
only at the very first position. -/
theorem parenAt_head_tail {cs num : List Char} (h : ParenAt cs num) :
    ∃ tail, cs = '(' :: tail ∧ ∀ c ∈ tail, c ≠ '(' := by
  obtain ⟨sp1, pct, sp2, hshape, hsp1, hpct, hsp2, rfl⟩ := h
  obtain ⟨sign, ds, fr, hs, hd, hf, rfl⟩ := hshape
  refine ⟨(sign ++ ds ++ fr) ++ (sp1 ++ (pct ++ ')' :: sp2)), by simp, ?_⟩
  intro c hc
  rcases List.mem_append.mp hc with hc | hc
  · rcases List.mem_append.mp hc with hc | hc
    · rcases List.mem_append.mp hc with hc | hc
      · rcases hs with rfl | rfl | rfl
        · cases hc
        · have : c = '-' := by simpa using hc
          subst this
          decide
        · have : c = '+' := by simpa using hc
          subst this
          decide
      · exact (digit_props (hd.2 c hc)).2.2.1
    · rcases hf with rfl | ⟨fs, hfs, rfl⟩
      · cases hc
      · rcases List.mem_cons.mp hc with rfl | hc
        · decide
        · exact (digit_props (hfs.2 c hc)).2.2.1
  · rcases List.mem_append.mp hc with hc | hc
    · exact (space_not_digit (hsp1 c hc)).2.2.1
    · rcases List.mem_append.mp hc with hc | hc
      · rcases hpct with rfl | rfl
        · cases hc
        · have : c = '%' := by simpa using hc
          subst this
          decide
      · rcases List.mem_cons.mp hc with rfl | hc
        · decide
        · exact (space_not_digit (hsp2 c hc)).2.2.1

/-! The leftmost-match search. -/

theorem fmf_complete {p : List Char → Option (List Char)} {cs : List Char}
    {i : Nat} {a : List Char}
    (h1 : p (cs.drop i) = some a) (h2 : ∀ j < i, p (cs.drop j) = none) :
    findMatchFrom p cs = some (i, a) := by
  induction cs generalizing i with
  | nil =>
    cases i with
    | zero =>
      rw [List.drop_nil] at h1
      unfold findMatchFrom
      rw [h1]
    | succ n =>
      have h0 := h2 0 (Nat.succ_pos n)
      rw [List.drop_nil] at h1 h0
      rw [h0] at h1
      cases h1
  | cons c cs ih =>
    cases i with
    | zero =>
      simp only [List.drop_zero] at h1
      simp [findMatchFrom, h1]
    | succ n =>
      have h0 := h2 0 (Nat.succ_pos n)
      simp only [List.drop_zero] at h0
      have hrec := ih (by simpa using h1)
        (fun j hj => by simpa using h2 (j + 1) (Nat.succ_lt_succ hj))
      simp [findMatchFrom, h0, hrec]

theorem fmf_sound {p : List Char → Option (List Char)} {cs : List Char}
    {i : Nat} {a : List Char} (h : findMatchFrom p cs = some (i, a)) :
    p (cs.drop i) = some a ∧ ∀ j < i, p (cs.drop j) = none := by
  induction cs generalizing i with
  | nil =>
    unfold findMatchFrom at h
    cases hp : p [] with
    | none => rw [hp] at h; cases h
    | some b =>
      rw [hp] at h
      cases h
      exact ⟨by simpa using hp, fun j hj => absurd hj (Nat.not_lt_zero j)⟩
  | cons c cs ih =>
    unfold findMatchFrom at h
    cases hp : p (c :: cs) with
    | some b =>
      rw [hp] at h
      cases h
      exact ⟨by simpa using hp, fun j hj => absurd hj (Nat.not_lt_zero j)⟩
    | none =>
      rw [hp] at h
      cases hrec : findMatchFrom p cs with
      | none => rw [hrec] at h; cases h
      | some x =>
        rw [hrec] at h
        obtain ⟨i', a'⟩ := x
        cases h
        obtain ⟨hh1, hh2⟩ := ih hrec
        refine ⟨by simpa using hh1, ?_⟩
        intro j hj
        cases j with
        | zero => simpa using hp
        | succ j' => simpa using hh2 j' (Nat.lt_of_succ_lt_succ hj)

theorem fmf_none_iff {p : List Char → Option (List Char)} {cs : List Char} :
    findMatchFrom p cs = none ↔ ∀ i, p (cs.drop i) = none := by
  induction cs with
  | nil =>
    constructor
    · intro h i
      rw [List.drop_nil]
      unfold findMatchFrom at h
      cases hp : p [] with
      | none => rfl
      | some a => rw [hp] at h; cases h
    · intro h
      have h0 := h 0
      rw [List.drop_nil] at h0
      simp [findMatchFrom, h0]
  | cons c cs ih =>
    constructor
    · intro h i
      unfold findMatchFrom at h
      cases hp : p (c :: cs) with
      | some a => rw [hp] at h; cases h
      | none =>
        rw [hp] at h
        cases hrec : findMatchFrom p cs with
        | some x => rw [hrec] at h; cases h
        | none =>
          have hall := ih.mp hrec
          cases i with
          | zero => simpa using hp
          | succ n => simpa using hall n
    · intro h
      have h0 := h 0
      simp only [List.drop_zero] at h0
      have hrec := ih.mpr (fun i => by simpa using h (i + 1))
      simp [findMatchFrom, h0, hrec]

/-! Bridge lemmas: the parser's behavior on a string admitting a declarative
decomposition. -/

theorem parse_paren_general {s : String} {pre tail num : List Char}
    (hsplit : s.data = pre ++ tail) (hp : ParenAt tail num) :
    parseReasoningEntry (.vstr s) =
      ⟨String.mk (jsTrim pre), numTokenVal num⟩ := by
  have h1 : s.data.drop pre.length = tail := by
    rw [hsplit]
    exact List.drop_left pre tail
  have h2 : parenSuffix (s.data.drop pre.length) = some num := by
    rw [h1]
    exact parenSuffix_complete hp
  have h3 : ∀ j < pre.length, parenSuffix (s.data.drop j) = none := by
    intro j hj
    cases hpj : parenSuffix (s.data.drop j) with
    | none => rfl
    | some num' =>
      exfalso
      obtain ⟨tail', heq', hno⟩ := parenAt_head_tail (parenSuffix_sound hpj)
      obtain ⟨t0, ht0, hno0⟩ := parenAt_head_tail hp
      have hdj : s.data.drop j = pre.drop j ++ tail := by
        rw [hsplit, List.drop_append_eq_append_drop,
          Nat.sub_eq_zero_of_le (Nat.le_of_lt hj), List.drop_zero]
      have hne : pre.drop j ≠ [] := by
        refine List.length_pos.mp ?_
        rw [List.length_drop]
        exact Nat.sub_pos_of_lt hj
      obtain ⟨b, bs, hbbs⟩ := List.exists_cons_of_ne_nil hne
      rw [hdj, hbbs] at heq'
      obtain ⟨hb, htl⟩ := List.cons_eq_cons.mp heq'
      have hmem : '(' ∈ tail' := by
        rw [← htl, ht0]
        exact List.mem_append_right bs (List.mem_cons_self '(' t0)
      exact hno '(' hmem rfl
  have hfm : findMatchFrom parenSuffix s.data = some (pre.length, num) :=
    fmf_complete h2 h3
  have htake : s.data.take pre.length = pre := by
    rw [hsplit]
    exact List.take_left pre tail
  simp only [parseReasoningEntry, hfm, htake]

theorem parse_bare_general {s : String} {pre tail num : List Char}
    (hsplit : s.data = pre ++ tail) (hb : BareAt tail num)
    (hnopar : ∀ i num', ¬ ParenAt (s.data.drop i) num')
    (hleft : ∀ j < pre.length, ∀ num', ¬ BareAt (s.data.drop j) num') :
    parseReasoningEntry (.vstr s) =
      ⟨String.mk (jsTrim pre), numTokenVal num⟩ := by
  have hpall : findMatchFrom parenSuffix s.data = none := by
    refine fmf_none_iff.mpr (fun i => ?_)
    cases hpi : parenSuffix (s.data.drop i) with
    | none => rfl
    | some n' => exact absurd (parenSuffix_sound hpi) (hnopar i n')
  have h1 : s.data.drop pre.length = tail := by
    rw [hsplit]
    exact List.drop_left pre tail
  have h2 : bareSuffix (s.data.drop pre.length) = some num := by
    rw [h1]
    exact bareSuffix_complete hb
  have h3 : ∀ j < pre.length, bareSuffix (s.data.drop j) = none := by
    intro j hj
    cases hpj : bareSuffix (s.data.drop j) with
    | none => rfl
    | some n' => exact absurd (bareSuffix_sound hpj) (hleft j hj n')
  have hfm : findMatchFrom bareSuffix s.data = some (pre.length, num) :=
    fmf_complete h2 h3
  have htake : s.data.take pre.length = pre := by
    rw [hsplit]
    exact List.take_left pre tail
  simp only [parseReasoningEntry, hpall, hfm, htake]

theorem parse_none_general {s : String}
    (hnopar : ∀ i num, ¬ ParenAt (s.data.drop i) num)
    (hnobare : ∀ i num, ¬ BareAt (s.data.drop i) num) :
    parseReasoningEntry (.vstr s) = ⟨String.mk (jsTrim s.data), 0⟩ := by
  have hpall : findMatchFrom parenSuffix s.data = none := by
    refine fmf_none_iff.mpr (fun i => ?_)
    cases hpi : parenSuffix (s.data.drop i) with
    | none => rfl
    | some n' => exact absurd (parenSuffix_sound hpi) (hnopar i n')
  have hball : findMatchFrom bareSuffix s.data = none := by
    refine fmf_none_iff.mpr (fun i => ?_)
    cases hpi : bareSuffix (s.data.drop i) with
    | none => rfl
    | some n' => exact absurd (bareSuffix_sound hpi) (hnobare i n')
  simp only [parseReasoningEntry, hpall, hball]

/-!
Claim theorems for the reasoning-entry parser.
-/

/-- Claim C2: when the input contains several parenthesized numeric groups,
only the group anchored at the true end of the string is consumed as the
weight — for any decomposition of the string into a prefix and an
end-anchored parenthesized group, the parser's rule is exactly the trimmed
prefix (so every earlier parenthetical group stays inside the rule text) and
the weight is the group's numeral; in particular
`parse("Mixed signals (+3.5) (-4.25)") = {rule: "Mixed signals (+3.5)",
weight: -4.25}`. -/
theorem C2_tiebreak :
    (∀ (s : String) (pre tail num : List Char),
      s.data = pre ++ tail → ParenAt tail num →
      parseReasoningEntry (.vstr s) =
        ⟨String.mk (jsTrim pre), numTokenVal num⟩) ∧
    parseReasoningEntry (.vstr "Mixed signals (+3.5) (-4.25)") =
      ⟨"Mixed signals (+3.5)", -4.25⟩ := by
  constructor
  · intro s pre tail num h1 h2
    exact parse_paren_general h1 h2
  · have h : parseReasoningEntry (.vstr "Mixed signals (+3.5) (-4.25)") =
        ⟨"Mixed signals (+3.5)", mkRat (-17) 4⟩ := by decide
    rw [h]
    norm_num [Rat.mkRat_eq_div]

/-- Witness for C2 at the spec's own example string. -/
theorem C2_tiebreak_witness :
    parseReasoningEntry (.vstr "Mixed signals (+3.5) (-4.25)") =
      ⟨String.mk (jsTrim "Mixed signals (+3.5) ".data),
        numTokenVal ['-', '4', '.', '2', '5']⟩ :=
  C2_tiebreak.1 "Mixed signals (+3.5) (-4.25)"
    "Mixed signals (+3.5) ".data "(-4.25)".data ['-', '4', '.', '2', '5']
    (by decide)
    ⟨[], [], [],
      ⟨['-'], ['4'], ['.', '2', '5'], Or.inr (Or.inl rfl),
        ⟨by decide, by decide⟩,
        Or.inr ⟨['2', '5'], ⟨by decide, by decide⟩, rfl⟩, by decide⟩,
      spaces_nil, Or.inl rfl, spaces_nil, by decide⟩

/-- Claim C3: every non-string input yields `{rule: "", weight: 0}`; the
embedded parser is a total function, mirroring that the source never
throws on such inputs. -/
theorem C3_nonstring_default :
    ∀ v : JSValue, v.isStr = false → parseReasoningEntry v = ⟨"", 0⟩ := by
  intro v hv
  cases v with
  | vstr s => exact absurd hv (by simp [JSValue.isStr])
  | vundef => rfl
  | vnull => rfl
  | vbool b => rfl
  | vnum q => rfl
  | vobj o => rfl
  | varr a => rfl

/-- Witness for C3 at a numeric input. -/
theorem C3_nonstring_default_witness :
    JSValue.isStr (.vnum 5) = false ∧
      parseReasoningEntry (.vnum 5) = ⟨"", 0⟩ :=
  ⟨by decide, C3_nonstring_default (.vnum 5) (by decide)⟩

/-- Claim C8: if no end-anchored parenthesized numeric group exists anywhere
but the string ends with an optionally signed decimal numeral, optionally
followed by a percent sign with optional surrounding whitespace, then the
parser returns that numeral as the weight and the trimmed preceding text as
the rule.  The decomposition is taken at the leftmost admissible position,
exactly as the regex engine reports it (for an end-anchored pattern the
match index is the leftmost position whose suffix matches); in particular
`parse("Loss of power -5.5%") = {rule: "Loss of power", weight: -5.5}`. -/
theorem C8_bare_trailing :
    (∀ (s : String) (pre tail num : List Char),
      s.data = pre ++ tail → BareAt tail num →
      (∀ i num', ¬ ParenAt (s.data.drop i) num') →
      (∀ j < pre.length, ∀ num', ¬ BareAt (s.data.drop j) num') →
      parseReasoningEntry (.vstr s) =
        ⟨String.mk (jsTrim pre), numTokenVal num⟩) ∧
    parseReasoningEntry (.vstr "Loss of power -5.5%") =
      ⟨"Loss of power", -5.5⟩ := by
  constructor
  · intro s pre tail num h1 h2 h3 h4
    exact parse_bare_general h1 h2 h3 h4
  · have h : parseReasoningEntry (.vstr "Loss of power -5.5%") =
        ⟨"Loss of power", mkRat (-11) 2⟩ := by decide
    rw [h]
    norm_num [Rat.mkRat_eq_div]

/-- Witness for C8 at the spec's own example string. -/
theorem C8_bare_trailing_witness :
    parseReasoningEntry (.vstr "Loss of power -5.5%") =
      ⟨String.mk (jsTrim "Loss of power ".data),
        numTokenVal ['-', '5', '.', '5']⟩ := by
  have hfm : findMatchFrom bareSuffix "Loss of power -5.5%".data =
      some (14, ['-', '5', '.', '5']) := by decide
  have hlen : ("Loss of power ".data).length = 14 := by decide
  refine C8_bare_trailing.1 "Loss of power -5.5%"
    "Loss of power ".data "-5.5%".data ['-', '5', '.', '5']
    (by decide)
    ⟨[], ['%'], [],
      ⟨['-'], ['5'], ['.', '5'], Or.inr (Or.inl rfl),
        ⟨by decide, by decide⟩,
        Or.inr ⟨['5'], ⟨by decide, by decide⟩, rfl⟩, by decide⟩,
      spaces_nil, Or.inr rfl, spaces_nil, by decide⟩
    ?_ ?_
  · intro i num' h
    have hc := parenSuffix_complete h
    have hn := fmf_none_iff.mp
      (by decide : findMatchFrom parenSuffix "Loss of power -5.5%".data = none) i
    rw [hn] at hc
    exact Option.noConfusion hc
  · intro j hj num' h
    have hc := bareSuffix_complete h
    have hn := (fmf_sound hfm).2 j (hlen ▸ hj)
    rw [hn] at hc
    exact Option.noConfusion hc

/-- Claim C9: when no numeral is anchored at the end of the string (neither
bare nor parenthesized), the parser returns the whole trimmed input as the
rule with weight 0, even if numerals occur mid-string; in particular
`parse("Ruler of 7 houses") = {rule: "Ruler of 7 houses", weight: 0}`. -/
theorem C9_no_trailing :
    (∀ s : String,
      (∀ i num, ¬ ParenAt (s.data.drop i) num) →
      (∀ i num, ¬ BareAt (s.data.drop i) num) →
      parseReasoningEntry (.vstr s) = ⟨String.mk (jsTrim s.data), 0⟩) ∧
    parseReasoningEntry (.vstr "Ruler of 7 houses") =
      ⟨"Ruler of 7 houses", 0⟩ := by
  constructor
  · intro s h1 h2
    exact parse_none_general h1 h2
  · decide

/-- Witness for C9 at the spec's own example string. -/
theorem C9_no_trailing_witness :
    parseReasoningEntry (.vstr "Ruler of 7 houses") =
      ⟨String.mk (jsTrim "Ruler of 7 houses".data), 0⟩ := by
  refine C9_no_trailing.1 "Ruler of 7 houses" ?_ ?_
  · intro i num h
    have hc := parenSuffix_complete h
    have hn := fmf_none_iff.mp
      (by decide : findMatchFrom parenSuffix "Ruler of 7 houses".data = none) i
    rw [hn] at hc
    exact Option.noConfusion hc
  · intro i num h
    have hc := bareSuffix_complete h
    have hn := fmf_none_iff.mp
      (by decide : findMatchFrom bareSuffix "Ruler of 7 houses".data = none) i
    rw [hn] at hc
    exact Option.noConfusion hc

/-- Claim C10: for every argument that is not a nonempty string — `null`,
`undefined`, the empty string, numbers, booleans, objects, arrays — the
guard of `cleanMoonText` returns the argument itself, unchanged and of the
same type, for any replacement chain `f`. -/
theorem C10_clean_guard :
    ∀ (f : String → String) (v : JSValue),
      (truthy v = false ∨ v.isStr = false) → cleanMoonText f v = v := by
  intro f v h
  rcases h with h | h
  · simp [cleanMoonText, h]
  · simp [cleanMoonText, h]

/-- Witness for C10: a truthy number and the empty string both come back
unchanged. -/
theorem C10_clean_guard_witness :
    cleanMoonText id (.vnum 5) = .vnum 5 ∧
      cleanMoonText id (.vstr "") = .vstr "" :=
  ⟨C10_clean_guard id (.vnum 5) (Or.inr (by decide)),
    C10_clean_guard id (.vstr "") (Or.inl (by decide))⟩


/-!
The location resolver `getLocationData` from `buildChartPayload`.

The chart record is modelled as a structured input covering every shape the
resolver probes: nested `chart_data.location`, `chart_data.timezone_info`
(with `location` being an object or a string, `location_name`,
`coordinates`, `timezone`), top-level `location_name`, and a top-level
`location` that is an object or a string.  `Option` covers both an absent
and a `null` field (the two are observationally identical here: every read
is either optional-chained or guarded by a truthiness test).  JavaScript's
`x || y` on these fields is truthiness-based and is embedded explicitly
(`numOr`, `jsStrOr`, `optStrOr`): `0` and `""` fall through to the default.
-/

/-- The string fallback `a || b`. -/
def jsStrOr (a b : String) : String :=
  if a ≠ "" then a else b

/-- The fallback `a || b` for an optional string field. -/
def optStrOr (a : Option String) (b : String) : String :=
  match a with
  | some s => jsStrOr s b
  | none => b

/-- The fallback `a || b` for an optional numeric field. -/
def numOr (a : Option Rat) (b : Rat) : Rat :=
  match a with
  | some q => if q ≠ 0 then q else b
  | none => b

/-- `String.prototype.split` with a one-character separator, on character
lists (JavaScript: `"".split(c)` is `[""]`). -/
def splitOnChar (sep : Char) : List Char → List (List Char)
  | [] => [[]]
  | c :: rest =>
    if c = sep then [] :: splitOnChar sep rest
    else
      match splitOnChar sep rest with
      | g :: gs => (c :: g) :: gs
      | [] => [[c]]

/-- `split` on strings. -/
def splitOnStr (sep : Char) (s : String) : List String :=
  (splitOnChar sep s.data).map String.mk

/-- `locationStr.split(',').map(s => s.trim())`. -/
def splitParts (s : String) : List String :=
  (splitOnStr ',' s).map jsTrimS

/-- `parts[0] || locationStr`. -/
def splitCity (s : String) : String :=
  jsStrOr ((splitParts s).headD "") s

/-- `parts[1] || 'Unknown'` (`parts[1]` is `undefined` when absent). -/
def splitCountry (s : String) : String :=
  match (splitParts s).get? 1 with
  | some c => jsStrOr c "Unknown"
  | none => "Unknown"

/-- `.replace(/_/g, ' ')`. -/
def underscoreToSpace (s : String) : String :=
  String.mk (s.data.map (fun c => if c = '_' then ' ' else c))

/-- A location object, carrying every field any branch reads. -/
structure LocObj where
  city : Option String
  name : Option String
  country : Option String
  latitude : Option Rat
  lat : Option Rat
  longitude : Option Rat
  lon : Option Rat
deriving DecidableEq

/-- The nested `timezone_info.coordinates` record. -/
structure Coords where
  latitude : Option Rat
  longitude : Option Rat
deriving DecidableEq

/-- `timezone_info.location`: an object or some other (string) value; the
branch guard checks `typeof === 'object'`. -/
inductive TzLoc where
  | obj : LocObj → TzLoc
  | str : String → TzLoc
deriving DecidableEq

/-- The nested `chart_data.timezone_info` record. -/
structure TimezoneInfo where
  location : Option TzLoc
  location_name : Option String
  coordinates : Option Coords
  timezone : Option String
deriving DecidableEq

/-- The nested `chart_data` record. -/
structure ChartData where
  location : Option LocObj
  timezone_info : Option TimezoneInfo
deriving DecidableEq

/-- Top-level `chart.location`: an object or a string. -/
inductive TopLoc where
  | obj : LocObj → TopLoc
  | str : String → TopLoc
deriving DecidableEq

/-- The chart record, restricted to the fields the resolver reads. -/
structure Chart where
  chart_data : Option ChartData
  location_name : Option String
  location : Option TopLoc
deriving DecidableEq

/-- The resolver's result: every return site of the source populates all
four fields, so the embedding is total into a record of non-optional
fields. -/
structure ResolvedLocation where
  city : String
  country : String
  lat : Rat
  lon : Rat
deriving DecidableEq

/-- `chart.chart_data?.timezone_info`. -/
def tzInfoOf (chart : Chart) : Option TimezoneInfo :=
  match chart.chart_data with
  | some cd => cd.timezone_info
  | none => none

/-- `...timezone_info?.coordinates?.latitude`. -/
def coordsLat (co : Option Coords) : Option Rat :=
  match co with
  | some c => c.latitude
  | none => none

/-- `...timezone_info?.coordinates?.longitude`. -/
def coordsLon (co : Option Coords) : Option Rat :=
  match co with
  | some c => c.longitude
  | none => none

/-- Branch 1: `chart_data?.location?.city` truthy and not `'Unknown'`. -/
def branch1 (chart : Chart) : Option ResolvedLocation :=
  match chart.chart_data with
  | none => none
  | some cd =>
    match cd.location with
    | none => none
    | some loc =>
      match loc.city with
      | none => none
      | some c =>
        if c ≠ "" ∧ c ≠ "Unknown" then
          some ⟨c, optStrOr loc.country "Unknown",
                numOr loc.latitude (numOr loc.lat 0),
                numOr loc.longitude (numOr loc.lon 0)⟩
        else none

/-- Branch 2: `chart_data?.timezone_info?.location` truthy and an object. -/
def branch2 (chart : Chart) : Option ResolvedLocation :=
  match tzInfoOf chart with
  | none => none
  | some ti =>
    match ti.location with
    | some (TzLoc.obj loc) =>
      some ⟨optStrOr loc.city (optStrOr loc.name "Unknown"),
            optStrOr loc.country "Unknown",
            numOr loc.latitude (numOr loc.lat 0),
            numOr loc.longitude (numOr loc.lon 0)⟩
    | _ => none

/-- Branch 3: `chart_data?.timezone_info?.location_name` truthy and not a
placeholder. -/
def branch3 (chart : Chart) : Option ResolvedLocation :=
  match tzInfoOf chart with
  | none => none
  | some ti =>
    match ti.location_name with
    | none => none
    | some s =>
      if s ≠ "" ∧ s ≠ "Unknown location" ∧ s ≠ "Unknown" then
        some ⟨splitCity s, splitCountry s,
              numOr (coordsLat ti.coordinates) 0,
              numOr (coordsLon ti.coordinates) 0⟩
      else none

/-- Branch 4: top-level `location_name` truthy and not a placeholder. -/
def branch4 (chart : Chart) : Option ResolvedLocation :=
  match chart.location_name with
  | none => none
  | some s =>
    if s ≠ "" ∧ s ≠ "Unknown location" ∧ s ≠ "Unknown" then
      some ⟨splitCity s, splitCountry s,
            numOr (coordsLat (match tzInfoOf chart with
              | some ti => ti.coordinates
              | none => none)) 0,
            numOr (coordsLon (match tzInfoOf chart with
              | some ti => ti.coordinates
              | none => none)) 0⟩
    else none

/-- Branch 5: top-level `location` truthy and an object. -/
def branch5 (chart : Chart) : Option ResolvedLocation :=
  match chart.location with
  | some (TopLoc.obj o) =>
    some ⟨optStrOr o.city "Unknown", optStrOr o.country "Unknown",
          numOr o.latitude (numOr o.lat 0),
          numOr o.longitude (numOr o.lon 0)⟩
  | _ => none

/-- Branch 6: top-level `location` a string other than `'Unknown'` (the
source excludes only `'Unknown'` here, not `'Unknown location'`, and does
not require the string to be nonempty). -/
def branch6 (chart : Chart) : Option ResolvedLocation :=
  match chart.location with
  | some (TopLoc.str s) =>
    if s ≠ "Unknown" then some ⟨splitCity s, splitCountry s, 0, 0⟩
    else none
  | _ => none

/-- Branch 7: `chart_data?.timezone_info?.timezone` truthy, not `'UTC'`,
containing `'/'`. -/
def branch7 (chart : Chart) : Option ResolvedLocation :=
  match tzInfoOf chart with
  | none => none
  | some ti =>
    match ti.timezone with
    | none => none
    | some t =>
      if t ≠ "" ∧ t ≠ "UTC" ∧ t.data.contains '/' = true then
        some ⟨underscoreToSpace ((splitOnStr '/' t).getLastD ""),
              jsStrOr ((splitOnStr '/' t).headD "") "Unknown", 0, 0⟩
      else none

/-- `getLocationData`: the ordered early-return chain of the source, with
the all-`'Unknown'` default when no branch fires. -/
def getLocationData (chart : Chart) : ResolvedLocation :=
  match branch1 chart with
  | some r => r
  | none =>
  match branch2 chart with
  | some r => r
  | none =>
  match branch3 chart with
  | some r => r
  | none =>
  match branch4 chart with
  | some r => r
  | none =>
  match branch5 chart with
  | some r => r
  | none =>
  match branch6 chart with
  | some r => r
  | none =>
  match branch7 chart with
  | some r => r
  | none => ⟨"Unknown", "Unknown", 0, 0⟩

/-- No guard of the fallback chain is satisfied. -/
abbrev noBranch (chart : Chart) : Prop :=
  branch1 chart = none ∧ branch2 chart = none ∧ branch3 chart = none ∧
  branch4 chart = none ∧ branch5 chart = none ∧ branch6 chart = none ∧
  branch7 chart = none

/-! Chart families used by the claims. -/

/-- A chart whose only location data is `chart_data.location`. -/
def mkLocChart (o : LocObj) : Chart :=
  ⟨some ⟨some o, none⟩, none, none⟩

/-- A chart whose only location data is `chart_data.timezone_info.location`
as an object. -/
def mkTzLocChart (o : LocObj) : Chart :=
  ⟨some ⟨none, some ⟨some (TzLoc.obj o), none, none, none⟩⟩, none, none⟩

/-- A chart whose only location data is
`chart_data.timezone_info.location_name`. -/
def mkLocNameChart (s : String) : Chart :=
  ⟨some ⟨none, some ⟨none, some s, none, none⟩⟩, none, none⟩

/-- A chart whose only location data is a top-level `location` object. -/
def mkTopLocObjChart (o : LocObj) : Chart :=
  ⟨none, none, some (TopLoc.obj o)⟩

/-- A chart with a top-level string `location` and, further down the chain,
a timezone `"America/New_York"` (to observe the fall-through). -/
def mkTopLocStrChart (s : String) : Chart :=
  ⟨some ⟨none, some ⟨none, none, none, some "America/New_York"⟩⟩, none,
    some (TopLoc.str s)⟩

/-- A chart whose only location data is the timezone string. -/
def mkTzChart (t : String) : Chart :=
  ⟨some ⟨none, some ⟨none, none, none, some t⟩⟩, none, none⟩

/-! Evaluation lemmas on the chart families. -/

theorem getLoc_tzloc (o : LocObj) :
    getLocationData (mkTzLocChart o) =
      ⟨optStrOr o.city (optStrOr o.name "Unknown"),
       optStrOr o.country "Unknown",
       numOr o.latitude (numOr o.lat 0),
       numOr o.longitude (numOr o.lon 0)⟩ := rfl

theorem getLoc_toploc (o : LocObj) :
    getLocationData (mkTopLocObjChart o) =
      ⟨optStrOr o.city "Unknown", optStrOr o.country "Unknown",
       numOr o.latitude (numOr o.lat 0),
       numOr o.longitude (numOr o.lon 0)⟩ := rfl

theorem getLoc_cdloc (o : LocObj) (c : String) (hc : o.city = some c)
    (h1 : c ≠ "") (h2 : c ≠ "Unknown") :
    getLocationData (mkLocChart o) =
      ⟨c, optStrOr o.country "Unknown",
       numOr o.latitude (numOr o.lat 0),
       numOr o.longitude (numOr o.lon 0)⟩ := by
  have hb1 : branch1 (mkLocChart o) =
      some ⟨c, optStrOr o.country "Unknown",
            numOr o.latitude (numOr o.lat 0),
            numOr o.longitude (numOr o.lon 0)⟩ := by
    simp [branch1, mkLocChart, hc, h1, h2]
  simp [getLocationData, hb1]

theorem getLoc_locname (s : String) (h0 : s ≠ "")
    (h1 : s ≠ "Unknown location") (h2 : s ≠ "Unknown") :
    getLocationData (mkLocNameChart s) =
      ⟨splitCity s, splitCountry s, 0, 0⟩ := by
  have hb3 : branch3 (mkLocNameChart s) =
      some ⟨splitCity s, splitCountry s, 0, 0⟩ := by
    simp [branch3, mkLocNameChart, tzInfoOf, h0, h1, h2, coordsLat, coordsLon,
      numOr]
  have hb1 : branch1 (mkLocNameChart s) = none := rfl
  have hb2 : branch2 (mkLocNameChart s) = none := rfl
  simp [getLocationData, hb1, hb2, hb3]

theorem getLoc_toplocstr (s : String) (hs : s ≠ "Unknown") :
    getLocationData (mkTopLocStrChart s) =
      ⟨splitCity s, splitCountry s, 0, 0⟩ := by
  have hb6 : branch6 (mkTopLocStrChart s) =
      some ⟨splitCity s, splitCountry s, 0, 0⟩ := by
    simp [branch6, mkTopLocStrChart, hs]
  have hb1 : branch1 (mkTopLocStrChart s) = none := rfl
  have hb2 : branch2 (mkTopLocStrChart s) = none := rfl
  have hb3 : branch3 (mkTopLocStrChart s) = none := rfl
  have hb4 : branch4 (mkTopLocStrChart s) = none := rfl
  have hb5 : branch5 (mkTopLocStrChart s) = none := rfl
  simp [getLocationData, hb1, hb2, hb3, hb4, hb5, hb6]

theorem getLoc_tz (t : String) (h0 : t ≠ "") (h1 : t ≠ "UTC")
    (h2 : t.data.contains '/' = true) :
    getLocationData (mkTzChart t) =
      ⟨underscoreToSpace ((splitOnStr '/' t).getLastD ""),
       jsStrOr ((splitOnStr '/' t).headD "") "Unknown", 0, 0⟩ := by
  have h2' : '/' ∈ t.data := by simpa using h2
  have hb7 : branch7 (mkTzChart t) =
      some ⟨underscoreToSpace ((splitOnStr '/' t).getLastD ""),
            jsStrOr ((splitOnStr '/' t).headD "") "Unknown", 0, 0⟩ := by
    simp [branch7, mkTzChart, tzInfoOf, h0, h1, h2, h2']
  have hb1 : branch1 (mkTzChart t) = none := rfl
  have hb2 : branch2 (mkTzChart t) = none := rfl
  have hb3 : branch3 (mkTzChart t) = none := rfl
  have hb4 : branch4 (mkTzChart t) = none := rfl
  have hb5 : branch5 (mkTzChart t) = none := rfl
  have hb6 : branch6 (mkTzChart t) = none := rfl
  simp [getLocationData, hb1, hb2, hb3, hb4, hb5, hb6, hb7]

/-!
Claim theorems for the location resolver.
-/

/-- Claim C1: the resolver is total — the embedding returns a
`ResolvedLocation` whose four fields are non-optional, mirroring that every
return site of the source populates `city`, `country`, `lat` and `lon` with
a string or number (never leaving a field missing, `null` or `undefined`) —
and when no branch of the fallback chain is satisfied the result is exactly
`{city: "Unknown", country: "Unknown", lat: 0, lon: 0}`; in particular the
empty record and records whose nested `chart_data` / `timezone_info`
objects are null or absent all resolve to that default. -/
theorem C1_full_population :
    (∀ chart : Chart, noBranch chart →
      getLocationData chart = ⟨"Unknown", "Unknown", 0, 0⟩) ∧
    getLocationData (Chart.mk none none none) =
      ⟨"Unknown", "Unknown", 0, 0⟩ ∧
    getLocationData (Chart.mk (some (ChartData.mk none none)) none none) =
      ⟨"Unknown", "Unknown", 0, 0⟩ ∧
    getLocationData (Chart.mk (some (ChartData.mk none
        (some (TimezoneInfo.mk none none none none)))) none none) =
      ⟨"Unknown", "Unknown", 0, 0⟩ := by
  refine ⟨?_, by decide, by decide, by decide⟩
  rintro chart ⟨h1, h2, h3, h4, h5, h6, h7⟩
  simp [getLocationData, h1, h2, h3, h4, h5, h6, h7]

/-- Witness for C1 at the empty record. -/
theorem C1_full_population_witness :
    getLocationData (Chart.mk none none none) =
      ⟨"Unknown", "Unknown", 0, 0⟩ :=
  C1_full_population.1 (Chart.mk none none none) (by decide)

/-- Counterexample to claim C4 as stated: in the `||` chains the full field
name is preferred only when its value is truthy.  For a location object with
`latitude: 0` and `lat: 5`, the claim says latitude 0 is used in preference
to `lat`, but the resolver returns `lat = 5` (JavaScript `0 || 5` is `5`). -/
theorem C4_counterexample :
    getLocationData (mkLocChart
        ⟨some "Paris", none, none, some 0, some 5, none, none⟩) =
      ⟨"Paris", "Unknown", 5, 0⟩ ∧ (5 : Rat) ≠ 0 :=
  ⟨by decide, by decide⟩

/-- Claim C4 amended: the full field name (`latitude` / `longitude` /
`city`) is preferred over the abbreviated or alias one (`lat` / `lon` /
`name`) only when its value is truthy (a nonzero number, a nonempty
string); a `latitude` or `longitude` of `0`, or a `city` of `""`, falls
through to the abbreviated field, and the defaults `0` / `"Unknown"` are
used when both fields are absent or falsy.  Verified on the
`timezone_info.location`-object branch and on the `chart_data.location`
branch (the branches the claim cites). -/
theorem C4_truthy_preference :
    ∀ o : LocObj,
      ((∀ q, o.latitude = some q → q ≠ 0 →
          (getLocationData (mkTzLocChart o)).lat = q) ∧
       ((o.latitude = none ∨ o.latitude = some 0) →
          ∀ q, o.lat = some q → q ≠ 0 →
          (getLocationData (mkTzLocChart o)).lat = q) ∧
       ((o.latitude = none ∨ o.latitude = some 0) →
        (o.lat = none ∨ o.lat = some 0) →
          (getLocationData (mkTzLocChart o)).lat = 0) ∧
       (∀ q, o.longitude = some q → q ≠ 0 →
          (getLocationData (mkTzLocChart o)).lon = q) ∧
       ((o.longitude = none ∨ o.longitude = some 0) →
          ∀ q, o.lon = some q → q ≠ 0 →
          (getLocationData (mkTzLocChart o)).lon = q) ∧
       ((o.longitude = none ∨ o.longitude = some 0) →
        (o.lon = none ∨ o.lon = some 0) →
          (getLocationData (mkTzLocChart o)).lon = 0) ∧
       (∀ c, o.city = some c → c ≠ "" →
          (getLocationData (mkTzLocChart o)).city = c) ∧
       ((o.city = none ∨ o.city = some "") →
          ∀ c, o.name = some c → c ≠ "" →
          (getLocationData (mkTzLocChart o)).city = c) ∧
       ((o.city = none ∨ o.city = some "") →
        (o.name = none ∨ o.name = some "") →
          (getLocationData (mkTzLocChart o)).city = "Unknown")) ∧
      (∀ c, o.city = some c → c ≠ "" → c ≠ "Unknown" →
        (∀ q, o.latitude = some q → q ≠ 0 →
          (getLocationData (mkLocChart o)).lat = q) ∧
        ((o.latitude = none ∨ o.latitude = some 0) →
          ∀ q, o.lat = some q → q ≠ 0 →
          (getLocationData (mkLocChart o)).lat = q) ∧
        ((o.latitude = none ∨ o.latitude = some 0) →
         (o.lat = none ∨ o.lat = some 0) →
          (getLocationData (mkLocChart o)).lat = 0) ∧
        (∀ q, o.longitude = some q → q ≠ 0 →
          (getLocationData (mkLocChart o)).lon = q) ∧
        ((o.longitude = none ∨ o.longitude = some 0) →
          ∀ q, o.lon = some q → q ≠ 0 →
          (getLocationData (mkLocChart o)).lon = q) ∧
        ((o.longitude = none ∨ o.longitude = some 0) →
         (o.lon = none ∨ o.lon = some 0) →
          (getLocationData (mkLocChart o)).lon = 0)) := by
  intro o
  refine ⟨⟨?_, ?_, ?_, ?_, ?_, ?_, ?_, ?_, ?_⟩, ?_⟩
  · intro q hq hne
    rw [getLoc_tzloc]
    simp [numOr, hq, hne]
  · rintro (h | h) q hq hne <;> rw [getLoc_tzloc] <;> simp [numOr, h, hq, hne]
  · rintro (h | h) (h' | h') <;> rw [getLoc_tzloc] <;> simp [numOr, h, h']
  · intro q hq hne
    rw [getLoc_tzloc]
    simp [numOr, hq, hne]
  · rintro (h | h) q hq hne <;> rw [getLoc_tzloc] <;> simp [numOr, h, hq, hne]
  · rintro (h | h) (h' | h') <;> rw [getLoc_tzloc] <;> simp [numOr, h, h']
  · intro c hc hne
    rw [getLoc_tzloc]
    simp [optStrOr, jsStrOr, hc, hne]
  · rintro (h | h) c hc hne <;> rw [getLoc_tzloc] <;>
      simp [optStrOr, jsStrOr, h, hc, hne]
  · rintro (h | h) (h' | h') <;> rw [getLoc_tzloc] <;>
      simp [optStrOr, jsStrOr, h, h']
  · intro c hc h1 h2
    refine ⟨?_, ?_, ?_, ?_, ?_, ?_⟩
    · intro q hq hne
      rw [getLoc_cdloc o c hc h1 h2]
      simp [numOr, hq, hne]
    · rintro (h | h) q hq hne <;> rw [getLoc_cdloc o c hc h1 h2] <;>
        simp [numOr, h, hq, hne]
    · rintro (h | h) (h' | h') <;> rw [getLoc_cdloc o c hc h1 h2] <;>
        simp [numOr, h, h']
    · intro q hq hne
      rw [getLoc_cdloc o c hc h1 h2]
      simp [numOr, hq, hne]
    · rintro (h | h) q hq hne <;> rw [getLoc_cdloc o c hc h1 h2] <;>
        simp [numOr, h, hq, hne]
    · rintro (h | h) (h' | h') <;> rw [getLoc_cdloc o c hc h1 h2] <;>
        simp [numOr, h, h']

/-- Witness for C4 (amended): `latitude: 0` falls through to `lat: 5`,
`longitude: 0` falls through to `lon: 7`, and an absent `city` falls
through to `name: "Nice"`. -/
theorem C4_truthy_preference_witness :
    (getLocationData (mkTzLocChart
        ⟨none, some "Nice", none, some 0, some 5, some 0, some 7⟩)).lat =
      5 ∧
    (getLocationData (mkTzLocChart
        ⟨none, some "Nice", none, some 0, some 5, some 0, some 7⟩)).lon =
      7 ∧
    (getLocationData (mkTzLocChart
        ⟨none, some "Nice", none, some 0, some 5, some 0, some 7⟩)).city =
      "Nice" :=
  ⟨(C4_truthy_preference ⟨none, some "Nice", none, some 0, some 5, some 0,
      some 7⟩).1.2.1 (Or.inr rfl) 5 rfl (by decide),
   (C4_truthy_preference ⟨none, some "Nice", none, some 0, some 5, some 0,
      some 7⟩).1.2.2.2.2.1 (Or.inr rfl) 7 rfl (by decide),
   (C4_truthy_preference ⟨none, some "Nice", none, some 0, some 5, some 0,
      some 7⟩).1.2.2.2.2.2.2.2.1 (Or.inl rfl) "Nice" rfl (by decide)⟩

/-- Counterexample to claim C5 as stated: the top-level string branch
excludes only the exact string `'Unknown'`.  For `location: "Unknown
location"` the claim says the branch is skipped (yielding the all-defaults
record on this chart), but the resolver consumes it and returns it as the
city. -/
theorem C5_counterexample :
    getLocationData (Chart.mk none none
        (some (TopLoc.str "Unknown location"))) =
      ⟨"Unknown location", "Unknown", 0, 0⟩ ∧
    ("Unknown location" : String) ≠ "Unknown" :=
  ⟨by decide, by decide⟩

/-- Claim C5 amended: a top-level string `location` is consumed (comma-split
with coordinates 0) whenever it differs from the exact placeholder
`'Unknown'` — including `'Unknown location'` and the empty string; only for
`'Unknown'` itself does the resolver fall through (here to the
timezone-string branch). -/
theorem C5_placeholder_exclusion :
    (∀ s : String, s ≠ "Unknown" →
      getLocationData (mkTopLocStrChart s) =
        ⟨splitCity s, splitCountry s, 0, 0⟩) ∧
    getLocationData (mkTopLocStrChart "Unknown") =
      ⟨"New York", "America", 0, 0⟩ := by
  exact ⟨getLoc_toplocstr, by decide⟩

/-- Witness for C5 (amended) at `"Unknown location"`. -/
theorem C5_placeholder_exclusion_witness :
    getLocationData (mkTopLocStrChart "Unknown location") =
      ⟨splitCity "Unknown location", splitCountry "Unknown location",
        0, 0⟩ :=
  C5_placeholder_exclusion.1 "Unknown location" (by decide)

/-- Counterexample to claim C6 as stated: for the location name
`", France"` the trimmed first segment is empty, and the claim says that
empty segment becomes the city; the resolver instead falls back
(`parts[0] || locationStr`) to the whole untrimmed string `", France"`. -/
theorem C6_counterexample :
    getLocationData (mkLocNameChart ", France") =
      ⟨", France", "France", 0, 0⟩ ∧
    jsTrimS ((splitOnStr ',' ", France").headD "") = "" ∧
    (", France" : String) ≠ "" :=
  ⟨by decide, by decide, by decide⟩

/-- Claim C6 amended: after the comma-split with per-segment trim, the city
is the trimmed first segment when that segment is nonempty, and otherwise
the whole original (untrimmed) string; the country is the trimmed second
segment when nonempty, else `"Unknown"`; coordinates come from the absent
coordinates field, hence 0 on this family. -/
theorem C6_split_fallback :
    ∀ s : String, s ≠ "" → s ≠ "Unknown location" → s ≠ "Unknown" →
      (((splitParts s).headD "" ≠ "" →
        (getLocationData (mkLocNameChart s)).city =
          (splitParts s).headD "") ∧
       ((splitParts s).headD "" = "" →
        (getLocationData (mkLocNameChart s)).city = s) ∧
       (∀ c, (splitParts s).get? 1 = some c → c ≠ "" →
        (getLocationData (mkLocNameChart s)).country = c) ∧
       (((splitParts s).get? 1 = none ∨ (splitParts s).get? 1 = some "") →
        (getLocationData (mkLocNameChart s)).country = "Unknown") ∧
       (getLocationData (mkLocNameChart s)).lat = 0 ∧
       (getLocationData (mkLocNameChart s)).lon = 0) := by
  intro s h0 h1 h2
  have he := getLoc_locname s h0 h1 h2
  refine ⟨?_, ?_, ?_, ?_, ?_, ?_⟩
  · intro hne
    rw [he]
    show splitCity s = (splitParts s).headD ""
    unfold splitCity jsStrOr
    rw [if_pos hne]
  · intro heq
    rw [he]
    show splitCity s = s
    unfold splitCity jsStrOr
    rw [if_neg (not_ne_iff.mpr heq)]
  · intro c hc hne
    rw [he]
    show splitCountry s = c
    unfold splitCountry
    rw [hc]
    show jsStrOr c "Unknown" = c
    unfold jsStrOr
    rw [if_pos hne]
  · rintro (h | h)
    · rw [he]
      show splitCountry s = "Unknown"
      unfold splitCountry
      rw [h]
    · rw [he]
      show splitCountry s = "Unknown"
      unfold splitCountry
      rw [h]
      show jsStrOr "" "Unknown" = "Unknown"
      unfold jsStrOr
      simp
  · rw [he]
  · rw [he]

/-- Witness for C6 (amended) at `", France"`: the empty trimmed first
segment makes the whole string the city, and the second segment the
country. -/
theorem C6_split_fallback_witness :
    (getLocationData (mkLocNameChart ", France")).city = ", France" ∧
    (getLocationData (mkLocNameChart ", France")).country = "France" := by
  have h := C6_split_fallback ", France" (by decide) (by decide) (by decide)
  exact ⟨h.2.1 (by decide), h.2.2.1 "France" (by decide) (by decide)⟩

/-- Counterexample to claim C7 as stated: for the timezone `"/Paris"` the
first path segment is the empty string, and the claim says it becomes the
country; the resolver instead returns `"Unknown"` (`parts[0] ||
'Unknown'`). -/
theorem C7_counterexample :
    getLocationData (mkTzChart "/Paris") = ⟨"Paris", "Unknown", 0, 0⟩ ∧
    (splitOnStr '/' "/Paris").headD "" = "" ∧
    ("Unknown" : String) ≠ "" :=
  ⟨by decide, by decide, by decide⟩

/-- Claim C7 amended: when no earlier branch fires and the timezone is a
nonempty string other than `"UTC"` containing `'/'`, the city is the final
path segment with every underscore replaced by a space and the country is
the first path segment when nonempty, else `"Unknown"`; coordinates are 0;
in particular `"America/New_York"` yields
`{city: "New York", country: "America", lat: 0, lon: 0}`. -/
theorem C7_timezone_fallback :
    (∀ t : String, t ≠ "" → t ≠ "UTC" → t.data.contains '/' = true →
      getLocationData (mkTzChart t) =
        ⟨underscoreToSpace ((splitOnStr '/' t).getLastD ""),
         jsStrOr ((splitOnStr '/' t).headD "") "Unknown", 0, 0⟩) ∧
    getLocationData (mkTzChart "America/New_York") =
      ⟨"New York", "America", 0, 0⟩ := by
  exact ⟨getLoc_tz, by decide⟩

/-- Witness for C7 (amended) at `"America/New_York"`. -/
theorem C7_timezone_fallback_witness :
    getLocationData (mkTzChart "America/New_York") =
      ⟨underscoreToSpace ((splitOnStr '/' "America/New_York").getLastD ""),
       jsStrOr ((splitOnStr '/' "America/New_York").headD "") "Unknown",
       0, 0⟩ :=
  C7_timezone_fallback.1 "America/New_York" (by decide) (by decide)
    (by decide)
